import Mathlib

/-!
Verification of the session layer of the binder-style RPC runtime
(RpcSession.cpp): connection pools, exclusive acquisition, session setup,
and shutdown coordination.  Machine integers of the source are modelled as
Nat (sizes, thread ids, errno values) and Int (status_t values, which are
signed).  Fallible operations return Option or a tagged result type.
-/

namespace RpcSession

/-- Modelled from the spec: the RpcConnection record lives in the header file
RpcSession.h, which is not part of the sources here.  Per the spec (section
4.3) it pairs a transport with an optional exclusive owner thread id and an
allow-nested bit that is true for incoming connections and false for outgoing
ones.  The transport itself is out of scope; `connId` stands for the identity
of the underlying object. -/
structure RpcConnection where
  connId : Nat
  exclusiveTid : Option Nat
  allowNested : Bool
deriving DecidableEq, Repr

/-- The mutable state of an RpcSession that the mutex `mMutex` guards:
the two pools, the rotating offset, the waiting-thread count, the configured
`mMaxThreads`, the incoming high-water mark `mMaxIncomingConnections`, and
the negotiated `mProtocolVersion`. -/
structure SessionState where
  outgoingConnections : List RpcConnection
  incomingConnections : List RpcConnection
  outgoingConnectionsOffset : Nat
  waitingThreads : Nat
  maxThreads : Nat
  maxIncomingConnections : Nat
  protocolVersion : Option Nat
deriving DecidableEq, Repr

/-- The three uses of `ExclusiveConnection::find` (enum ConnectionUse). -/
inductive ConnectionUse where
  | client
  | clientAsync
  | clientRefcount
deriving DecidableEq, Repr

/-- Loop body of `ExclusiveConnection::findConnection` (RpcSession.cpp lines
799-814).  Scans `sockets` starting at index `hint`, recording in `avail` the
first connection with no exclusive owner (only when `wantAvailable`, i.e. when
the caller passed a non-null `available` out-parameter) and stopping at the
first connection owned by `tid`.  A connection taken as `available` is skipped
for the exclusive check by `continue`, exactly as in the source.  Returns
(exclusive index, available index).  `fuel` starts at `sockets.length` and
`i` at 0. -/
def findConnectionGo (tid : Nat) (wantAvailable : Bool)
    (sockets : List RpcConnection) (hint : Nat) :
    Nat → Nat → Option Nat → Option Nat × Option Nat
  | 0, _, avail => (none, avail)
  | fuel + 1, i, avail =>
    match sockets.get? ((i + hint) % sockets.length) with
    | none => (none, avail)
    | some socket =>
      if wantAvailable = true ∧ avail = none ∧ socket.exclusiveTid = none then
        findConnectionGo tid wantAvailable sockets hint fuel (i + 1)
          (some ((i + hint) % sockets.length))
      else if socket.exclusiveTid = some tid then
        (some ((i + hint) % sockets.length), avail)
      else
        findConnectionGo tid wantAvailable sockets hint fuel (i + 1) avail

/-- `ExclusiveConnection::findConnection` (RpcSession.cpp lines 790-815).
Both call sites pass a null initial `exclusive`, so the early-return guard on
a pre-set exclusive never fires and is omitted. -/
def findConnection (tid : Nat) (wantAvailable : Bool)
    (sockets : List RpcConnection) (hint : Nat) : Option Nat × Option Nat :=
  findConnectionGo tid wantAvailable sockets hint sockets.length 0 none

/-- Sets the `exclusiveTid` field of the connection at index `i` (no effect
when `i` is out of range).  Models writing through the `sp<RpcConnection>`
into the pool. -/
def setOwner (owner : Option Nat) : Nat → List RpcConnection → List RpcConnection
  | _, [] => []
  | 0, c :: cs => { c with exclusiveTid := owner } :: cs
  | i + 1, c :: cs => c :: setOwner owner i cs

/-- Which pool the bound connection of an ExclusiveConnection handle lives in,
and at which index. -/
inductive Chosen where
  | outg (i : Nat)
  | inc (i : Nat)
deriving DecidableEq, Repr

/-- Outcome of one iteration of the `while (true)` loop in
`ExclusiveConnection::find`: a connection was bound (with the reentrant bit),
the call fails with WOULD_BLOCK, or the iteration reaches the wait on
`mAvailableConnectionCv`. -/
inductive FindOutcome where
  | bound (c : Chosen) (reentrant : Bool)
  | wouldBlock
  | waitCv
deriving DecidableEq, Repr

/-- One iteration of the loop of `ExclusiveConnection::find` (RpcSession.cpp
lines 714-783): scan the outgoing pool from the offset; advance the offset
for CLIENT_ASYNC when either candidate was found; for non-async uses scan the
incoming pool for a connection already owned by this thread and prefer it
when nesting is allowed (or, for CLIENT_REFCOUNT, when no available outgoing
connection exists); then choose: exclusive (reentrant), else available
(bind and set owner), else WOULD_BLOCK when the outgoing pool is empty, else
wait. -/
def findStep (tid : Nat) (use : ConnectionUse) (s : SessionState) :
    FindOutcome × SessionState :=
  let scan := findConnection tid true s.outgoingConnections s.outgoingConnectionsOffset
  let exclusiveOut := scan.1
  let available := scan.2
  let s1 :=
    if use = ConnectionUse.clientAsync ∧ (exclusiveOut ≠ none ∨ available ≠ none) then
      { s with outgoingConnectionsOffset :=
          (s.outgoingConnectionsOffset + 1) % s.outgoingConnections.length }
    else s
  let exclusiveIncoming : Option Nat :=
    if use ≠ ConnectionUse.clientAsync then
      (findConnection tid false s.incomingConnections 0).1
    else none
  let exclusive : Option Chosen :=
    match exclusiveIncoming with
    | some j =>
      match s.incomingConnections.get? j with
      | some c =>
        if c.allowNested = true then some (Chosen.inc j)
        else if use = ConnectionUse.clientRefcount ∧ available = none then
          some (Chosen.inc j)
        else exclusiveOut.map Chosen.outg
      | none => exclusiveOut.map Chosen.outg
    | none => exclusiveOut.map Chosen.outg
  match exclusive with
  | some c => (FindOutcome.bound c true, s1)
  | none =>
    match available with
    | some i =>
      (FindOutcome.bound (Chosen.outg i) false,
       { s1 with outgoingConnections := setOwner (some tid) i s1.outgoingConnections })
    | none =>
      if s1.outgoingConnections.length = 0 then (FindOutcome.wouldBlock, s1)
      else (FindOutcome.waitCv, s1)

/-- Result of `ExclusiveConnection::find` as observed by the caller.
`blocked` marks the path that waits on the condition variable: in this
single-threaded model no other thread can signal it, so the call does not
return on that path. -/
inductive FindResult where
  | ok (c : Chosen) (reentrant : Bool)
  | wouldBlockErr
  | blocked
deriving DecidableEq, Repr

/-- `ExclusiveConnection::find` (RpcSession.cpp lines 704-788), for states in
which the first loop iteration decides.  `mWaitingThreads` is incremented
before the loop (line 713) and decremented after the loop exits by `break`
(line 785); the `return WOULD_BLOCK` on line 778 leaves the loop directly and
does not pass through the decrement, which the model reproduces. -/
def find (tid : Nat) (use : ConnectionUse) (s : SessionState) :
    FindResult × SessionState :=
  let s0 := { s with waitingThreads := s.waitingThreads + 1 }
  match findStep tid use s0 with
  | (FindOutcome.bound c r, s1) =>
    (FindResult.ok c r, { s1 with waitingThreads := s1.waitingThreads - 1 })
  | (FindOutcome.wouldBlock, s1) => (FindResult.wouldBlockErr, s1)
  | (FindOutcome.waitCv, s1) => (FindResult.blocked, s1)

/-- The fields of an ExclusiveConnection handle that its destructor reads:
the bound connection (if any) and the reentrant bit. -/
structure ExclusiveConnection where
  mConnection : Option Chosen
  mReentrant : Bool
deriving DecidableEq, Repr

/-- Destructor `ExclusiveConnection::~ExclusiveConnection` (RpcSession.cpp
lines 817-829): when the handle is non-reentrant and bound, clear the owner of
the bound connection and call `notify_one` exactly when `mWaitingThreads > 0`;
otherwise do nothing.  The Bool result records whether `notify_one` ran. -/
def releaseExclusive (h : ExclusiveConnection) (s : SessionState) :
    SessionState × Bool :=
  match h.mReentrant, h.mConnection with
  | false, some c =>
    let s1 :=
      match c with
      | Chosen.outg i =>
        { s with outgoingConnections := setOwner none i s.outgoingConnections }
      | Chosen.inc i =>
        { s with incomingConnections := setOwner none i s.incomingConnections }
    (s1, decide (0 < s1.waitingThreads))
  | _, _ => (s, false)

/-- IBinder FLAG_ONEWAY bit, used by `RpcSession::transact` to pick the
connection use. -/
def FLAG_ONEWAY : Nat := 1

/-- Connection-use selection of `RpcSession::transact` (RpcSession.cpp lines
215-226): CLIENT_ASYNC for oneway flags, CLIENT otherwise; the transaction
then runs on the connection that `find` binds, and a non-OK `find` status is
returned to the caller unchanged. -/
def transactFind (tid : Nat) (flags : Nat) (s : SessionState) :
    FindResult × SessionState :=
  find tid
    (if flags % 2 = 1 then ConnectionUse.clientAsync else ConnectionUse.client) s

/-- `RpcSession::assignIncomingConnectionToThisThread` (RpcSession.cpp lines
655-681): reject when the incoming pool has reached `mMaxThreads`; reject
when the pool has shrunk below the high-water mark `mMaxIncomingConnections`
(some connection has already shut down); otherwise append a connection owned
by the calling thread and raise the high-water mark to the new pool size.
The allow-nested bit of an incoming connection is true per the spec, section
4.3 (the RpcConnection record lives in the header, outside these sources). -/
def assignIncomingConnectionToThisThread (tid cid : Nat) (s : SessionState) :
    Option RpcConnection × SessionState :=
  if s.maxThreads ≤ s.incomingConnections.length then (none, s)
  else if s.incomingConnections.length < s.maxIncomingConnections then (none, s)
  else
    let conn : RpcConnection := ⟨cid, some tid, true⟩
    (some conn,
     { s with
        incomingConnections := s.incomingConnections ++ [conn],
        maxIncomingConnections := (s.incomingConnections ++ [conn]).length })

/-- `RpcSession::setProtocolVersion` (RpcSession.cpp lines 101-119): refuse a
version that is neither below RPC_WIRE_PROTOCOL_VERSION_NEXT nor equal to
RPC_WIRE_PROTOCOL_VERSION_EXPERIMENTAL; refuse to raise an already-set
version; otherwise store the version and report success.  The two wire
constants live in RpcWireFormat.h, outside these sources, so they are passed
as the parameters `versionNext` and `versionExperimental`. -/
def setProtocolVersion (versionNext versionExperimental : Nat)
    (s : SessionState) (version : Nat) : Bool × SessionState :=
  if versionNext ≤ version ∧ version ≠ versionExperimental then (false, s)
  else
    match s.protocolVersion with
    | some p =>
      if p < version then (false, s)
      else (true, { s with protocolVersion := some version })
    | none => (true, { s with protocolVersion := some version })

/-- State of the session while `RpcSession::addOutgoingConnection`
(RpcSession.cpp lines 616-636) performs the connection-init write: the first
critical section has pushed the new connection with `exclusiveTid` set to the
adding thread. -/
def addOutgoingConnectionPush (tid cid : Nat) (s : SessionState) : SessionState :=
  { s with outgoingConnections :=
      s.outgoingConnections ++ [⟨cid, some tid, false⟩] }

/-- `RpcSession::addOutgoingConnection` at the point of return: after the
optional `sendConnectionInit` write (external I/O on the transport, no
session-state effect), the second critical section clears `exclusiveTid` of
the connection that was pushed.  The `init` flag of the source only selects
whether the write happens; the clearing is unconditional. -/
def addOutgoingConnection (tid cid : Nat) (s : SessionState) : SessionState :=
  let s1 := addOutgoingConnectionPush tid cid s
  { s1 with outgoingConnections :=
      setOwner none (s1.outgoingConnections.length - 1) s1.outgoingConnections }

/-- Repeats `addOutgoingConnection`, as the loop of `RpcSession::setupClient`
on line 462 does through `connectAndInit(mId, false)`. -/
def addOutgoingN (tid : Nat) : Nat → Nat → SessionState → SessionState
  | _, 0, s => s
  | cid, n + 1, s => addOutgoingN tid (cid + 1) n (addOutgoingConnection tid cid s)

/-- Repeats the incoming-connection admission, as the loop of
`RpcSession::setupClient` on line 467 does: each `connectAndInit(mId, true)`
ends in a spawned worker calling `assignIncomingConnectionToThisThread`. -/
def addIncomingN (tid : Nat) : Nat → Nat → SessionState → SessionState
  | _, 0, s => s
  | cid, n + 1, s =>
    addIncomingN tid (cid + 1) n (assignIncomingConnectionToThisThread tid cid s).2

/-- Pool population of `RpcSession::setupClient` (RpcSession.cpp lines
411-473) when every connection attempt succeeds: one seed outgoing
connection, then `numThreadsAvailable - 1` further outgoing connections (the
loop guard is `i + 1 < numThreadsAvailable`), then `mMaxThreads` incoming
connections.  `remoteMaxThreads` is the value read by
`getRemoteMaxThreads`. -/
def setupClientPools (tid remoteMaxThreads : Nat) (s : SessionState) :
    SessionState :=
  let s1 := addOutgoingConnection tid 0 s
  let s2 := addOutgoingN tid 1 (remoteMaxThreads - 1) s1
  addIncomingN tid (remoteMaxThreads + 1) s.maxThreads s2

/-- Linux errno values consulted by `setupOneSocketConnection`. -/
def EAGAIN : Nat := 11
/-- Linux errno value for EINPROGRESS. -/
def EINPROGRESS : Nat := 115
/-- Linux errno value for ECONNRESET. -/
def ECONNRESET : Nat := 104
/-- status_t UNKNOWN_ERROR (utils/Errors.h), INT32_MIN. -/
def UNKNOWN_ERROR : Int := -2147483648

/-- Environment response when `connect()` on the non-blocking socket fails
with EAGAIN or EINPROGRESS and `setupOneSocketConnection` completes the
connection through `triggerablePoll` and `getsockopt(SO_ERROR)`: the poll can
fail with a status, the getsockopt call can fail with an errno, or the
SO_ERROR value (0 when the connection completed) is retrieved. -/
inductive PollOutcome where
  | pollFail (status : Int)
  | sockoptFail (err : Nat)
  | soError (err : Nat)
deriving DecidableEq, Repr

/-- Environment response to one connection attempt of
`setupOneSocketConnection`: `socket()` fails with an errno, `connect()`
succeeds at once, or `connect()` fails with an errno (with the further
responses consulted only when that errno is EAGAIN or EINPROGRESS). -/
inductive AttemptOutcome where
  | socketFail (err : Nat)
  | connectSuccess
  | connectErr (err : Nat) (inProgress : PollOutcome)
deriving DecidableEq, Repr

/-- What one attempt decides: retry the loop, fail with a status, or fall
through to `initAndAddConnection`. -/
inductive StepResult where
  | retry
  | fail (status : Int)
  | proceed
deriving DecidableEq, Repr

/-- Handling of the final `connErrno` in `setupOneSocketConnection`
(RpcSession.cpp lines 520-529): ECONNRESET continues the retry loop, any
other nonzero errno is returned negated, and zero falls through to
success. -/
def checkConnErrno (e : Nat) : StepResult :=
  if e = ECONNRESET then StepResult.retry
  else if e ≠ 0 then StepResult.fail (-(e : Int))
  else StepResult.proceed

/-- One connection attempt of `setupOneSocketConnection` (RpcSession.cpp
lines 486-533): a `socket()` failure returns the negated errno; a direct
`connect()` success proceeds; on a `connect()` failure with EAGAIN or
EINPROGRESS the poll and getsockopt results decide (a poll failure returns
the poll status, a getsockopt failure returns the negated errno, and
otherwise the retrieved SO_ERROR replaces the connect errno); the final
errno then goes through `checkConnErrno`. -/
def handleAttempt : AttemptOutcome → StepResult
  | AttemptOutcome.socketFail e => StepResult.fail (-(e : Int))
  | AttemptOutcome.connectSuccess => StepResult.proceed
  | AttemptOutcome.connectErr e ip =>
    if e = EAGAIN ∨ e = EINPROGRESS then
      match ip with
      | PollOutcome.pollFail st => StepResult.fail st
      | PollOutcome.sockoptFail e2 => StepResult.fail (-(e2 : Int))
      | PollOutcome.soError e2 => checkConnErrno e2
    else checkConnErrno e

/-- Result of `setupOneSocketConnection`: either control reached
`initAndAddConnection` (the connection is established and setup proceeds) or
a status is returned. -/
inductive SetupResult where
  | proceedInit
  | err (status : Int)
deriving DecidableEq, Repr

/-- The retry loop `for (tries = 0; tries < 5; tries++)` of
`setupOneSocketConnection` (RpcSession.cpp lines 483-537), with
`usleep(10000)` before every attempt but the first.  Returns the result, the
number of attempts made, and the list of microsecond sleep durations.
`fuel` starts at 5; running out of it is the `return UNKNOWN_ERROR` after
the loop. -/
def setupLoop (outcomes : Nat → AttemptOutcome) :
    Nat → Nat → List Nat → SetupResult × Nat × List Nat
  | 0, tries, sleeps => (SetupResult.err UNKNOWN_ERROR, tries, sleeps)
  | fuel + 1, tries, sleeps =>
    let sleeps1 := if 0 < tries then sleeps ++ [10000] else sleeps
    match handleAttempt (outcomes tries) with
    | StepResult.retry => setupLoop outcomes fuel (tries + 1) sleeps1
    | StepResult.fail st => (SetupResult.err st, tries + 1, sleeps1)
    | StepResult.proceed => (SetupResult.proceedInit, tries + 1, sleeps1)

/-- `RpcSession::setupOneSocketConnection` given the environment responses to
its successive attempts. -/
def setupOneSocketConnection (outcomes : Nat → AttemptOutcome) :
    SetupResult × Nat × List Nat :=
  setupLoop outcomes 5 0 []

/-- Shared state that `RpcSession::shutdownAndWait(true)` and the incoming
workers exchange: the registered worker thread ids (`mThreads`, keyed by
thread id), the incoming connection ids (`mIncomingConnections`), the
high-water mark, `mMaxThreads`, and the `mShutdown` flag of the
WaitForShutdownListener. -/
structure ShutdownSystem where
  threads : List Nat
  incoming : List Nat
  maxIncomingConnections : Nat
  maxThreads : Nat
  shutdown : Bool
deriving DecidableEq, Repr

/-- A fresh session before any incoming connection: empty registry, empty
pool, zero high-water mark, shutdown not yet observed. -/
def initSystem (maxThreads : Nat) : ShutdownSystem :=
  ⟨[], [], 0, maxThreads, false⟩

/-- Interleaved transitions of the incoming workers and the admission path,
each one a critical section of the source executed under `mMutex`:
`registerThread` is `preJoinThreadOwnership` (line 279); `assignAccept` is
the accepting path of `assignIncomingConnectionToThisThread` (lines 659-678),
with both rejection guards negated; `eraseThread` is the self-removal in
`join` (lines 381-384); `removeConnection` is `removeIncomingConnection`
(lines 683-698), which sets the `mShutdown` flag of the listener through
`onSessionAllIncomingThreadsEnded` exactly when the erase empties the
pool. -/
inductive ShutdownStep : ShutdownSystem → ShutdownSystem → Prop
  | registerThread (w : Nat) (s : ShutdownSystem) :
      ShutdownStep s { s with threads := w :: s.threads }
  | assignAccept (cid : Nat) (s : ShutdownSystem)
      (h1 : s.incoming.length < s.maxThreads)
      (h2 : ¬ s.incoming.length < s.maxIncomingConnections) :
      ShutdownStep s
        { s with incoming := s.incoming ++ [cid],
                 maxIncomingConnections := s.incoming.length + 1 }
  | eraseThread (w : Nat) (s : ShutdownSystem) (h : w ∈ s.threads) :
      ShutdownStep s { s with threads := s.threads.erase w }
  | removeConnection (cid : Nat) (s : ShutdownSystem) (h : cid ∈ s.incoming) :
      ShutdownStep s
        { s with incoming := s.incoming.erase cid,
                 shutdown := s.shutdown || (s.incoming.erase cid).isEmpty }

/-- Inductive invariant of the shutdown system: the pool never exceeds the
high-water mark, and once the listener has observed shutdown the pool is
empty and the high-water mark is positive (so the draining guard of
`assignIncomingConnectionToThisThread` rejects every later admission). -/
def ShutdownInv (s : ShutdownSystem) : Prop :=
  s.incoming.length ≤ s.maxIncomingConnections ∧
  (s.shutdown = true → s.incoming = [] ∧ 1 ≤ s.maxIncomingConnections)

/-- A free outgoing connection with identity `n`, as the async-rotation
scenario of the spec (section 8, scenario 2) starts from. -/
def freshConn (n : Nat) : RpcConnection := ⟨n, none, false⟩

/-- Session for the async-rotation scenario: three free outgoing connections,
no incoming connections, `mOutgoingConnectionsOffset` at `i`. -/
def rotationState (i : Nat) : SessionState :=
  ⟨[freshConn 0, freshConn 1, freshConn 2], [], i, 0, 3, 0, none⟩

/-- The connection that one CLIENT_ASYNC acquisition binds, when it
succeeds. -/
def asyncAcquireChosen (tid : Nat) (s : SessionState) : Option Chosen :=
  match (find tid ConnectionUse.clientAsync s).1 with
  | FindResult.ok c _ => some c
  | _ => none

/-- One CLIENT_ASYNC acquisition followed by the destruction of its handle:
the session state after a completed async transact. -/
def asyncAcquireRelease (tid : Nat) (s : SessionState) : SessionState :=
  match find tid ConnectionUse.clientAsync s with
  | (FindResult.ok c r, s1) => (releaseExclusive ⟨some c, r⟩ s1).1
  | (_, s1) => s1

theorem findConnectionGo_no_owner (tid : Nat) (w : Bool)
    (sockets : List RpcConnection) (hint : Nat)
    (h : ∀ c ∈ sockets, c.exclusiveTid ≠ some tid) :
    ∀ fuel i avail, (findConnectionGo tid w sockets hint fuel i avail).1 = none := by
  intro fuel
  induction fuel with
  | zero => intro i avail; rfl
  | succ n ih =>
    intro i avail
    unfold findConnectionGo
    cases hg : sockets.get? ((i + hint) % sockets.length) with
    | none => rfl
    | some socket =>
      have hne := h socket (List.get?_mem hg)
      dsimp only
      rcases Decidable.em (w = true ∧ avail = none ∧ socket.exclusiveTid = none) with hc | hc
      · rw [if_pos hc]
        exact ih _ _
      · rw [if_neg hc, if_neg hne]
        exact ih _ _

theorem findConnection_no_owner (tid : Nat) (w : Bool)
    (sockets : List RpcConnection) (hint : Nat)
    (h : ∀ c ∈ sockets, c.exclusiveTid ≠ some tid) :
    (findConnection tid w sockets hint).1 = none :=
  findConnectionGo_no_owner tid w sockets hint h _ _ _

theorem findStep_empty_outgoing (tid : Nat) (use : ConnectionUse) (s : SessionState)
    (hout : s.outgoingConnections = [])
    (hinc : ∀ c ∈ s.incomingConnections, c.exclusiveTid ≠ some tid) :
    findStep tid use s = (FindOutcome.wouldBlock, s) := by
  have hscan : findConnection tid true s.outgoingConnections s.outgoingConnectionsOffset = (none, none) := by
    rw [hout]; rfl
  have hincscan : (findConnection tid false s.incomingConnections 0).1 = none :=
    findConnection_no_owner tid false s.incomingConnections 0 hinc
  unfold findStep
  rw [hscan]
  simp [hincscan, hout]

theorem findStep_waitingThreads (tid : Nat) (use : ConnectionUse) (s : SessionState) :
    (findStep tid use s).2.waitingThreads = s.waitingThreads := by
  unfold findStep
  dsimp only
  split
  · split <;> rfl
  · split
    · split <;> rfl
    · split
      · split <;> rfl
      · split <;> rfl

/-- C1: when `ExclusiveConnection::find` reaches the choice step with no
exclusive candidate (the calling thread owns no connection in either pool)
and no available outgoing connection, and the outgoing pool is empty, it
returns WOULD_BLOCK at once: the result is `wouldBlockErr`, never the
`blocked` marker, so the wait on `mAvailableConnectionCv` is not reached.
In particular a non-nested `transact` on a session with zero outgoing
connections, as on a server with no back-channel, gets WOULD_BLOCK. -/
theorem find_wouldBlock_no_outgoing (tid : Nat) (use : ConnectionUse) (flags : Nat)
    (s : SessionState)
    (hout : s.outgoingConnections = [])
    (hinc : ∀ c ∈ s.incomingConnections, c.exclusiveTid ≠ some tid) :
    (find tid use s).1 = FindResult.wouldBlockErr ∧
    (transactFind tid flags s).1 = FindResult.wouldBlockErr := by
  have key : ∀ u : ConnectionUse, (find tid u s).1 = FindResult.wouldBlockErr := by
    intro u
    unfold find
    dsimp only
    have h1 : findStep tid u { s with waitingThreads := s.waitingThreads + 1 } =
        (FindOutcome.wouldBlock, { s with waitingThreads := s.waitingThreads + 1 }) :=
      findStep_empty_outgoing tid u _ hout hinc
    rw [h1]
  refine ⟨key use, ?_⟩
  unfold transactFind
  exact key _

theorem find_wouldBlock_no_outgoing_witness :
    ((find 7 ConnectionUse.client ⟨[], [], 0, 0, 1, 0, none⟩).1 = FindResult.wouldBlockErr ∧
     (transactFind 7 0 ⟨[], [], 0, 0, 1, 0, none⟩).1 = FindResult.wouldBlockErr) :=
  find_wouldBlock_no_outgoing 7 ConnectionUse.client 0 ⟨[], [], 0, 0, 1, 0, none⟩
    (by rfl) (by intro c hc; simp at hc)

/-- C2 counterexample: on a session with empty pools and `mWaitingThreads`
at 0, `find` returns WOULD_BLOCK and leaves `mWaitingThreads` at 1, so the
claim that the count after any single acquisition equals the count before it
is false: the WOULD_BLOCK return path skips the decrement. -/
theorem find_waitingThreads_leak_cex :
    ¬ ((find 42 ConnectionUse.client ⟨[], [], 0, 0, 1, 0, none⟩).2.waitingThreads =
       (⟨[], [], 0, 0, 1, 0, none⟩ : SessionState).waitingThreads) := by decide

/-- C2 amended: `find` increments `mWaitingThreads` on entry and decrements
it before returning a handle, so a successful acquisition leaves the count
unchanged; the WOULD_BLOCK failure return skips the decrement, leaving the
count one above its pre-call value. -/
theorem find_waitingThreads_balance (tid : Nat) (use : ConnectionUse) (s : SessionState) :
    (∀ c r, (find tid use s).1 = FindResult.ok c r →
        (find tid use s).2.waitingThreads = s.waitingThreads) ∧
    ((find tid use s).1 = FindResult.wouldBlockErr →
        (find tid use s).2.waitingThreads = s.waitingThreads + 1) := by
  have hw := findStep_waitingThreads tid use { s with waitingThreads := s.waitingThreads + 1 }
  unfold find
  dsimp only
  rcases hfs : findStep tid use { s with waitingThreads := s.waitingThreads + 1 } with ⟨o, s1⟩
  rw [hfs] at hw
  dsimp only at hw
  cases o with
  | bound c r =>
    constructor
    · intro c2 r2 _
      dsimp only
      omega
    · intro hcontra
      dsimp only at hcontra
      exact absurd hcontra (by simp)
  | wouldBlock =>
    constructor
    · intro c2 r2 hcontra
      dsimp only at hcontra
      exact absurd hcontra (by simp)
    · intro _
      exact hw
  | waitCv =>
    constructor
    · intro c2 r2 hcontra
      dsimp only at hcontra
      exact absurd hcontra (by simp)
    · intro hcontra
      dsimp only at hcontra
      exact absurd hcontra (by simp)

theorem findStep_offset (tid : Nat) (use : ConnectionUse) (s : SessionState) :
    (findStep tid use s).2.outgoingConnectionsOffset =
      if use = ConnectionUse.clientAsync ∧
         ((findConnection tid true s.outgoingConnections s.outgoingConnectionsOffset).1 ≠ none ∨
          (findConnection tid true s.outgoingConnections s.outgoingConnectionsOffset).2 ≠ none) then
        (s.outgoingConnectionsOffset + 1) % s.outgoingConnections.length
      else s.outgoingConnectionsOffset := by
  unfold findStep
  dsimp only
  repeat' split
  all_goals rfl

/-- C3: the outgoing offset advances by exactly one modulo the pool size
when and only when the use is CLIENT_ASYNC and the outgoing-pool scan found
an exclusive or an available candidate; and with three free outgoing
connections and initial offset i less than 3, three sequential CLIENT_ASYNC
acquisitions, each released before the next, bind connections i, i+1 and
i+2 modulo 3. -/
theorem async_rotation (tid : Nat) (use : ConnectionUse) (s : SessionState)
    (i : Nat) (hi : i < 3) :
    ((findStep tid use s).2.outgoingConnectionsOffset =
      if use = ConnectionUse.clientAsync ∧
         ((findConnection tid true s.outgoingConnections s.outgoingConnectionsOffset).1 ≠ none ∨
          (findConnection tid true s.outgoingConnections s.outgoingConnectionsOffset).2 ≠ none) then
        (s.outgoingConnectionsOffset + 1) % s.outgoingConnections.length
      else s.outgoingConnectionsOffset) ∧
    (asyncAcquireChosen 42 (rotationState i) = some (Chosen.outg i) ∧
     asyncAcquireChosen 42 (asyncAcquireRelease 42 (rotationState i)) =
       some (Chosen.outg ((i + 1) % 3)) ∧
     asyncAcquireChosen 42 (asyncAcquireRelease 42 (asyncAcquireRelease 42 (rotationState i))) =
       some (Chosen.outg ((i + 2) % 3))) := by
  refine ⟨findStep_offset tid use s, ?_⟩
  interval_cases i <;> exact ⟨by decide, by decide, by decide⟩

theorem setOwner_get_eq (o : Option Nat) (i : Nat) (l : List RpcConnection) :
    (setOwner o i l).get? i = (l.get? i).map (fun c => { c with exclusiveTid := o }) := by
  induction l generalizing i with
  | nil => cases i <;> rfl
  | cons c cs ih =>
    cases i with
    | zero => rfl
    | succ n => exact ih n

theorem setOwner_get_ne (o : Option Nat) (i j : Nat) (l : List RpcConnection)
    (h : j ≠ i) : (setOwner o i l).get? j = l.get? j := by
  induction l generalizing i j with
  | nil => cases i <;> rfl
  | cons c cs ih =>
    cases i with
    | zero =>
      cases j with
      | zero => exact absurd rfl h
      | succ m => rfl
    | succ n =>
      cases j with
      | zero => rfl
      | succ m => exact ih n m (fun hh => h (by rw [hh]))

/-- C4: destroying a non-reentrant bound handle clears `exclusiveTid` of the
bound connection, leaves every other connection and all other session fields
unchanged, and calls `notify_one` if and only if `mWaitingThreads > 0`;
destroying a reentrant handle changes nothing and notifies nobody. -/
theorem release_semantics (s : SessionState) (i : Nat) (oc : Option Chosen) :
    (let out := releaseExclusive ⟨some (Chosen.outg i), false⟩ s
     out.1.outgoingConnections.get? i =
       (s.outgoingConnections.get? i).map (fun c => { c with exclusiveTid := none }) ∧
     (∀ j, j ≠ i → out.1.outgoingConnections.get? j = s.outgoingConnections.get? j) ∧
     out.1.incomingConnections = s.incomingConnections ∧
     out.1.outgoingConnectionsOffset = s.outgoingConnectionsOffset ∧
     out.1.waitingThreads = s.waitingThreads ∧
     out.1.maxThreads = s.maxThreads ∧
     out.1.maxIncomingConnections = s.maxIncomingConnections ∧
     out.1.protocolVersion = s.protocolVersion ∧
     (out.2 = true ↔ 0 < s.waitingThreads)) ∧
    (let out := releaseExclusive ⟨some (Chosen.inc i), false⟩ s
     out.1.incomingConnections.get? i =
       (s.incomingConnections.get? i).map (fun c => { c with exclusiveTid := none }) ∧
     (∀ j, j ≠ i → out.1.incomingConnections.get? j = s.incomingConnections.get? j) ∧
     out.1.outgoingConnections = s.outgoingConnections ∧
     out.1.waitingThreads = s.waitingThreads ∧
     (out.2 = true ↔ 0 < s.waitingThreads)) ∧
    releaseExclusive ⟨oc, true⟩ s = (s, false) := by
  refine ⟨?_, ?_, ?_⟩
  · refine ⟨setOwner_get_eq none i s.outgoingConnections,
      fun j hj => setOwner_get_ne none i j s.outgoingConnections hj,
      rfl, rfl, rfl, rfl, rfl, rfl, ?_⟩
    simp [releaseExclusive]
  · refine ⟨setOwner_get_eq none i s.incomingConnections,
      fun j hj => setOwner_get_ne none i j s.incomingConnections hj,
      rfl, rfl, ?_⟩
    simp [releaseExclusive]
  · rfl

/-- C5: `assignIncomingConnectionToThisThread` rejects and leaves the state
unchanged exactly when the incoming pool has reached `mMaxThreads` or has
shrunk below `mMaxIncomingConnections`; otherwise it appends a connection
owned by the calling thread and raises the high-water mark to the new pool
length; and the invariant that the pool length is at most the high-water
mark, which is at most `mMaxThreads`, is preserved. -/
theorem assign_incoming_spec (tid cid : Nat) (s : SessionState) :
    ((assignIncomingConnectionToThisThread tid cid s).1 = none ∧
       (assignIncomingConnectionToThisThread tid cid s).2 = s ↔
      (s.maxThreads ≤ s.incomingConnections.length ∨
       s.incomingConnections.length < s.maxIncomingConnections)) ∧
    (¬ (s.maxThreads ≤ s.incomingConnections.length ∨
        s.incomingConnections.length < s.maxIncomingConnections) →
      (assignIncomingConnectionToThisThread tid cid s).1 =
        some ⟨cid, some tid, true⟩ ∧
      (assignIncomingConnectionToThisThread tid cid s).2.incomingConnections =
        s.incomingConnections ++ [⟨cid, some tid, true⟩] ∧
      (assignIncomingConnectionToThisThread tid cid s).2.maxIncomingConnections =
        s.incomingConnections.length + 1 ∧
      (assignIncomingConnectionToThisThread tid cid s).2.outgoingConnections =
        s.outgoingConnections ∧
      (assignIncomingConnectionToThisThread tid cid s).2.maxThreads =
        s.maxThreads) ∧
    (s.incomingConnections.length ≤ s.maxIncomingConnections →
      s.maxIncomingConnections ≤ s.maxThreads →
      (assignIncomingConnectionToThisThread tid cid s).2.incomingConnections.length ≤
        (assignIncomingConnectionToThisThread tid cid s).2.maxIncomingConnections ∧
      (assignIncomingConnectionToThisThread tid cid s).2.maxIncomingConnections ≤
        (assignIncomingConnectionToThisThread tid cid s).2.maxThreads) := by
  unfold assignIncomingConnectionToThisThread
  by_cases h1 : s.maxThreads ≤ s.incomingConnections.length
  · rw [if_pos h1]
    exact ⟨⟨fun _ => Or.inl h1, fun _ => ⟨rfl, rfl⟩⟩,
      fun hcon => absurd (Or.inl h1) hcon,
      fun ha hb => ⟨ha, hb⟩⟩
  · rw [if_neg h1]
    by_cases h2 : s.incomingConnections.length < s.maxIncomingConnections
    · rw [if_pos h2]
      exact ⟨⟨fun _ => Or.inr h2, fun _ => ⟨rfl, rfl⟩⟩,
        fun hcon => absurd (Or.inr h2) hcon,
        fun ha hb => ⟨ha, hb⟩⟩
    · rw [if_neg h2]
      refine ⟨⟨fun hcon => ?_, fun hor => ?_⟩,
        fun _ => ⟨rfl, rfl, by simp, rfl, rfl⟩, fun ha hb => ?_⟩
      · exact absurd hcon.1 (by simp)
      · rcases hor with h | h
        · exact absurd h h1
        · exact absurd h h2
      · refine ⟨by simp, ?_⟩
        simp only [List.length_append, List.length_cons, List.length_nil]
        omega

/-- C6: once `mProtocolVersion` holds p, `setProtocolVersion` with a version
above p returns false and leaves the version at p, and with a known version
at most p it returns true and stores that version: the protocol version can
only be lowered once set, never raised. -/
theorem setProtocolVersion_monotone (versionNext versionExperimental : Nat)
    (s : SessionState) (v p : Nat) (hset : s.protocolVersion = some p) :
    (p < v →
      setProtocolVersion versionNext versionExperimental s v = (false, s)) ∧
    (v ≤ p → (v < versionNext ∨ v = versionExperimental) →
      setProtocolVersion versionNext versionExperimental s v =
        (true, { s with protocolVersion := some v })) := by
  unfold setProtocolVersion
  rw [hset]
  constructor
  · intro hlt
    by_cases hk : versionNext ≤ v ∧ v ≠ versionExperimental
    · rw [if_pos hk]
    · rw [if_neg hk]
      dsimp only
      rw [if_pos hlt]
  · intro hle hknown
    have hk : ¬ (versionNext ≤ v ∧ v ≠ versionExperimental) := by
      rcases hknown with h | h
      · intro hc
        omega
      · intro hc
        exact hc.2 h
    rw [if_neg hk]
    dsimp only
    rw [if_neg (by omega : ¬ p < v)]

theorem setProtocolVersion_monotone_witness :
    (setProtocolVersion 2 9 ⟨[], [], 0, 0, 1, 0, some 1⟩ 2 =
      (false, ⟨[], [], 0, 0, 1, 0, some 1⟩) ∧
     setProtocolVersion 2 9 ⟨[], [], 0, 0, 1, 0, some 1⟩ 0 =
      (true, ⟨[], [], 0, 0, 1, 0, some 0⟩)) :=
  ⟨(setProtocolVersion_monotone 2 9 ⟨[], [], 0, 0, 1, 0, some 1⟩ 2 1 rfl).1
      (by decide),
   (setProtocolVersion_monotone 2 9 ⟨[], [], 0, 0, 1, 0, some 1⟩ 0 1 rfl).2
      (by decide) (Or.inl (by decide))⟩

theorem setOwner_append_last (o : Option Nat) (l : List RpcConnection)
    (c : RpcConnection) :
    setOwner o l.length (l ++ [c]) = l ++ [{ c with exclusiveTid := o }] := by
  induction l with
  | nil => rfl
  | cons a as ih =>
    show a :: setOwner o as.length (as ++ [c]) = a :: (as ++ [{ c with exclusiveTid := o }])
    rw [ih]

theorem addOutgoingConnection_eq (tid cid : Nat) (s : SessionState) :
    addOutgoingConnection tid cid s =
      { s with outgoingConnections :=
          s.outgoingConnections ++ [⟨cid, none, false⟩] } := by
  unfold addOutgoingConnection addOutgoingConnectionPush
  dsimp only
  rw [List.length_append]
  simp only [List.length_cons, List.length_nil, Nat.add_sub_cancel]
  rw [setOwner_append_last]

/-- C10: while the connection-init write of `addOutgoingConnection` runs,
the pushed connection is owned by the adding thread; when the function
returns, that connection has `exclusiveTid` cleared to none and the pool is
the prior pool with exactly this one connection appended, so the new
outgoing connection is immediately acquirable by any thread. -/
theorem addOutgoingConnection_owner_cleared (tid cid : Nat) (s : SessionState) :
    (addOutgoingConnectionPush tid cid s).outgoingConnections.get?
        s.outgoingConnections.length = some ⟨cid, some tid, false⟩ ∧
    (addOutgoingConnection tid cid s).outgoingConnections =
      s.outgoingConnections ++ [⟨cid, none, false⟩] ∧
    (addOutgoingConnection tid cid s).outgoingConnections.get?
        s.outgoingConnections.length = some ⟨cid, none, false⟩ ∧
    (addOutgoingConnection tid cid s).incomingConnections =
      s.incomingConnections := by
  refine ⟨?_, ?_, ?_, ?_⟩
  · exact List.get?_concat_length s.outgoingConnections _
  · rw [addOutgoingConnection_eq]
  · rw [addOutgoingConnection_eq]
    exact List.get?_concat_length s.outgoingConnections _
  · rw [addOutgoingConnection_eq]

theorem addOutgoingN_state (tid : Nat) (n : Nat) :
    ∀ (cid : Nat) (s : SessionState),
    (addOutgoingN tid cid n s).outgoingConnections.length =
      s.outgoingConnections.length + n ∧
    (addOutgoingN tid cid n s).incomingConnections = s.incomingConnections ∧
    (addOutgoingN tid cid n s).maxThreads = s.maxThreads ∧
    (addOutgoingN tid cid n s).maxIncomingConnections =
      s.maxIncomingConnections := by
  induction n with
  | zero => intro cid s; exact ⟨rfl, rfl, rfl, rfl⟩
  | succ m ih =>
    intro cid s
    unfold addOutgoingN
    rcases ih (cid + 1) (addOutgoingConnection tid cid s) with ⟨hl, hi, hm, hx⟩
    have he := addOutgoingConnection_eq tid cid s
    refine ⟨?_, ?_, ?_, ?_⟩
    · rw [hl, he]
      simp only [List.length_append, List.length_cons, List.length_nil]
      omega
    · rw [hi, he]
    · rw [hm, he]
    · rw [hx, he]

theorem assign_accept_eq (tid cid : Nat) (s : SessionState)
    (h1 : s.incomingConnections.length < s.maxThreads)
    (h2 : s.maxIncomingConnections ≤ s.incomingConnections.length) :
    (assignIncomingConnectionToThisThread tid cid s).2 =
      { s with
          incomingConnections := s.incomingConnections ++ [⟨cid, some tid, true⟩],
          maxIncomingConnections := s.incomingConnections.length + 1 } := by
  unfold assignIncomingConnectionToThisThread
  rw [if_neg (by omega), if_neg (by omega)]
  dsimp only
  simp [List.length_append]

theorem addIncomingN_state (tid : Nat) (n : Nat) :
    ∀ (cid : Nat) (s : SessionState),
    s.maxIncomingConnections = s.incomingConnections.length →
    s.incomingConnections.length + n ≤ s.maxThreads →
    (addIncomingN tid cid n s).incomingConnections.length =
      s.incomingConnections.length + n ∧
    (addIncomingN tid cid n s).maxIncomingConnections =
      s.incomingConnections.length + n ∧
    (addIncomingN tid cid n s).outgoingConnections = s.outgoingConnections ∧
    (addIncomingN tid cid n s).maxThreads = s.maxThreads := by
  induction n with
  | zero =>
    intro cid s hseen hroom
    refine ⟨rfl, ?_, rfl, rfl⟩
    show s.maxIncomingConnections = s.incomingConnections.length + 0
    omega
  | succ m ih =>
    intro cid s hseen hroom
    unfold addIncomingN
    have heq := assign_accept_eq tid cid s (by omega) (by omega)
    rw [heq]
    have hlen : (s.incomingConnections ++
        [(⟨cid, some tid, true⟩ : RpcConnection)]).length =
        s.incomingConnections.length + 1 := by simp
    rcases ih (cid + 1)
        { s with
            incomingConnections :=
              s.incomingConnections ++ [⟨cid, some tid, true⟩],
            maxIncomingConnections := s.incomingConnections.length + 1 }
        (by simp) (by simp only [hlen]; omega)
      with ⟨ha, hb, hc, hd⟩
    refine ⟨?_, ?_, hc, hd⟩
    · rw [ha]
      simp only [hlen]
      omega
    · rw [hb]
      simp only [hlen]
      omega

/-- C8 counterexample: when the remote reports zero max threads, the setup
loops add no further outgoing connection but the seed connection already
exists, so the outgoing pool has length 1, not 0 as the claim requires. -/
theorem setupClient_zero_remote_cex :
    (setupClientPools 1 0 ⟨[], [], 0, 0, 2, 0, none⟩).outgoingConnections.length = 1 ∧
    (1 : Nat) ≠ 0 := by decide

/-- C8 amended: for every client setup that completes with a remote-reported
max-thread count of at least 1, the outgoing pool length equals that count
(one seed plus count minus one additional connections) and the incoming pool
length equals the locally configured `mMaxThreads`. -/
theorem setupClient_pool_sizes (tid remoteMax localMax : Nat)
    (h : 1 ≤ remoteMax) :
    (setupClientPools tid remoteMax
        ⟨[], [], 0, 0, localMax, 0, none⟩).outgoingConnections.length = remoteMax ∧
    (setupClientPools tid remoteMax
        ⟨[], [], 0, 0, localMax, 0, none⟩).incomingConnections.length = localMax := by
  unfold setupClientPools
  dsimp only
  set s0 : SessionState := ⟨[], [], 0, 0, localMax, 0, none⟩ with hs0
  set s1 := addOutgoingConnection tid 0 s0 with hs1
  have h1 : s1.outgoingConnections.length = 1 ∧ s1.incomingConnections = [] ∧
      s1.maxThreads = localMax ∧ s1.maxIncomingConnections = 0 := by
    rw [hs1, addOutgoingConnection_eq]
    exact ⟨rfl, rfl, rfl, rfl⟩
  set s2 := addOutgoingN tid 1 (remoteMax - 1) s1 with hs2
  rcases addOutgoingN_state tid (remoteMax - 1) 1 s1 with ⟨h2l, h2i, h2m, h2x⟩
  rw [← hs2] at h2l h2i h2m h2x
  rcases addIncomingN_state tid localMax (remoteMax + 1) s2
      (by rw [h2x, h2i, h1.2.1, h1.2.2.2]; rfl)
      (by rw [h2i, h1.2.1, h2m, h1.2.2.1]; simp) with ⟨h3a, h3b, h3c, h3d⟩
  constructor
  · rw [h3c, h2l, h1.1]
    omega
  · rw [h3a, h2i, h1.2.1]
    simp

theorem setupLoop_attempts_le (outcomes : Nat → AttemptOutcome) :
    ∀ (fuel tries : Nat) (sleeps : List Nat),
    (setupLoop outcomes fuel tries sleeps).2.1 ≤ tries + fuel := by
  intro fuel
  induction fuel with
  | zero => intro tries sleeps; exact Nat.le_refl _
  | succ m ih =>
    intro tries sleeps
    unfold setupLoop
    dsimp only
    cases handleAttempt (outcomes tries) with
    | retry =>
      calc (setupLoop outcomes m (tries + 1) _).2.1
          ≤ (tries + 1) + m := ih _ _
        _ = tries + (m + 1) := by omega
    | fail st => show tries + 1 ≤ tries + (m + 1); omega
    | proceed => show tries + 1 ≤ tries + (m + 1); omega

theorem setupLoop_sleeps (outcomes : Nat → AttemptOutcome) :
    ∀ (fuel tries : Nat) (sleeps : List Nat),
    sleeps = List.replicate (tries - 1) 10000 →
    (setupLoop outcomes fuel tries sleeps).2.2 =
      List.replicate ((setupLoop outcomes fuel tries sleeps).2.1 - 1) 10000 := by
  intro fuel
  induction fuel with
  | zero => intro tries sleeps h; exact h
  | succ m ih =>
    intro tries sleeps h
    unfold setupLoop
    dsimp only
    have hs1 : (if 0 < tries then sleeps ++ [10000] else sleeps) =
        List.replicate ((tries + 1) - 1) 10000 := by
      rcases Nat.eq_zero_or_pos tries with hz | hp
      · rw [hz] at h ⊢
        simpa using h
      · rw [if_pos hp, h]
        have h2 : tries + 1 - 1 = (tries - 1) + 1 := by omega
        rw [h2]
        exact (List.replicate_succ' _ _).symm
    cases handleAttempt (outcomes tries) with
    | retry => exact ih (tries + 1) _ hs1
    | fail st => exact hs1
    | proceed => exact hs1

/-- C7: `setupOneSocketConnection` makes at most 5 connection attempts,
sleeping 10000 microseconds (10 ms) before every attempt after the first; an
attempt retries only when the resolved connect errno is ECONNRESET; a first
attempt whose connect errno is any other nonzero value returns the negated
errno immediately; four resets followed by a successful connect reach
`initAndAddConnection` (the setup proceeds and returns OK); five resets
return UNKNOWN_ERROR. -/
theorem socket_retry_spec (outcomes : Nat → AttemptOutcome) (e : Nat)
    (ip : PollOutcome) (e2 : Nat) (ip2 : PollOutcome) :
    (setupOneSocketConnection outcomes).2.1 ≤ 5 ∧
    (setupOneSocketConnection outcomes).2.2 =
      List.replicate ((setupOneSocketConnection outcomes).2.1 - 1) 10000 ∧
    (handleAttempt (AttemptOutcome.connectErr e ip) = StepResult.retry →
      e = ECONNRESET ∨
      ((e = EAGAIN ∨ e = EINPROGRESS) ∧ ip = PollOutcome.soError ECONNRESET)) ∧
    handleAttempt (AttemptOutcome.socketFail e) = StepResult.fail (-(e : Int)) ∧
    handleAttempt AttemptOutcome.connectSuccess = StepResult.proceed ∧
    (outcomes 0 = AttemptOutcome.connectErr e2 ip2 → e2 ≠ EAGAIN →
      e2 ≠ EINPROGRESS → e2 ≠ ECONNRESET → e2 ≠ 0 →
      setupOneSocketConnection outcomes =
        (SetupResult.err (-(e2 : Int)), 1, [])) ∧
    setupOneSocketConnection
        (fun k => if k < 4 then
            AttemptOutcome.connectErr ECONNRESET (PollOutcome.soError 0)
          else AttemptOutcome.connectSuccess) =
      (SetupResult.proceedInit, 5, List.replicate 4 10000) ∧
    setupOneSocketConnection
        (fun _ => AttemptOutcome.connectErr ECONNRESET (PollOutcome.soError 0)) =
      (SetupResult.err UNKNOWN_ERROR, 5, List.replicate 4 10000) := by
  refine ⟨setupLoop_attempts_le outcomes 5 0 [], setupLoop_sleeps outcomes 5 0 [] rfl,
    ?_, rfl, rfl, ?_, by decide, by decide⟩
  · intro hretry
    simp only [handleAttempt] at hretry
    by_cases hip : e = EAGAIN ∨ e = EINPROGRESS
    · rw [if_pos hip] at hretry
      cases ip with
      | pollFail st => exact absurd hretry (by simp)
      | sockoptFail e3 => exact absurd hretry (by simp)
      | soError e3 =>
        dsimp only at hretry
        unfold checkConnErrno at hretry
        by_cases h3 : e3 = ECONNRESET
        · exact Or.inr ⟨hip, by rw [h3]⟩
        · rw [if_neg h3] at hretry
          by_cases h4 : e3 ≠ 0
          · rw [if_pos h4] at hretry
            exact absurd hretry (by simp)
          · rw [if_neg h4] at hretry
            exact absurd hretry (by simp)
    · rw [if_neg hip] at hretry
      unfold checkConnErrno at hretry
      by_cases h3 : e = ECONNRESET
      · exact Or.inl h3
      · rw [if_neg h3] at hretry
        by_cases h4 : e ≠ 0
        · rw [if_pos h4] at hretry
          exact absurd hretry (by simp)
        · rw [if_neg h4] at hretry
          exact absurd hretry (by simp)
  · intro hout h1 h2 h3 h4
    unfold setupOneSocketConnection setupLoop
    dsimp only
    rw [hout]
    simp only [handleAttempt]
    rw [if_neg (by tauto)]
    unfold checkConnErrno
    rw [if_neg h3, if_pos h4]
    rfl

theorem shutdownInv_init (m : Nat) : ShutdownInv (initSystem m) :=
  ⟨Nat.le_refl 0, fun h => absurd h Bool.false_ne_true⟩

theorem shutdownInv_step (s s1 : ShutdownSystem) (hinv : ShutdownInv s)
    (hstep : ShutdownStep s s1) : ShutdownInv s1 := by
  rcases hinv with ⟨hle, hsh⟩
  cases hstep with
  | registerThread w s => exact ⟨hle, hsh⟩
  | assignAccept cid s h1 h2 =>
    refine ⟨by simp, fun h => ?_⟩
    rcases hsh h with ⟨hemp, hpos⟩
    rw [hemp] at h2
    exact absurd hpos (by simpa using h2)
  | eraseThread w s h => exact ⟨hle, hsh⟩
  | removeConnection cid s h =>
    constructor
    · have := List.length_erase_of_mem h
      dsimp only
      omega
    · intro hsh1
      dsimp only at hsh1
      rcases (Bool.or_eq_true _ _).mp hsh1 with hl | hr
      · rcases hsh hl with ⟨hemp, _⟩
        rw [hemp] at h
        exact absurd h (List.not_mem_nil cid)
      · refine ⟨List.isEmpty_iff.mp hr, ?_⟩
        have hne : s.incoming ≠ [] := by
          intro hz
          rw [hz] at h
          exact List.not_mem_nil cid h
        have hpos : 1 ≤ s.incoming.length := by
          cases hi : s.incoming with
          | nil => exact absurd hi hne
          | cons a l => simp [hi]
        show 1 ≤ s.maxIncomingConnections
        omega

theorem shutdownInv_reachable (m : Nat) (s : ShutdownSystem)
    (h : Relation.ReflTransGen ShutdownStep (initSystem m) s) :
    ShutdownInv s := by
  induction h with
  | refl => exact shutdownInv_init m
  | tail hab hbc ih => exact shutdownInv_step _ _ ih hbc

/-- C9: in every interleaving of worker registration, connection admission,
worker self-removal and connection removal reachable from a fresh session,
if `shutdownAndWait(true)` returns, which requires the listener to have
observed `mShutdown` and the fatal assertion on an empty thread registry to
pass, then the thread registry and the incoming pool are both empty. -/
theorem shutdownAndWait_post (m : Nat) (s : ShutdownSystem)
    (hreach : Relation.ReflTransGen ShutdownStep (initSystem m) s)
    (hshutdown : s.shutdown = true)
    (hthreads : s.threads = []) :
    s.threads = [] ∧ s.incoming = [] :=
  ⟨hthreads, ((shutdownInv_reachable m s hreach).2 hshutdown).1⟩

theorem shutdownAndWait_post_witness :
    (⟨[], [], 1, 1, true⟩ : ShutdownSystem).threads = [] ∧
    (⟨[], [], 1, 1, true⟩ : ShutdownSystem).incoming = [] := by
  have t1 : ShutdownStep ⟨[], [], 0, 1, false⟩ ⟨[], [0], 1, 1, false⟩ :=
    ShutdownStep.assignAccept 0 ⟨[], [], 0, 1, false⟩ (by decide) (by decide)
  have t2 : ShutdownStep ⟨[], [0], 1, 1, false⟩ ⟨[7], [0], 1, 1, false⟩ :=
    ShutdownStep.registerThread 7 ⟨[], [0], 1, 1, false⟩
  have t3 : ShutdownStep ⟨[7], [0], 1, 1, false⟩ ⟨[], [0], 1, 1, false⟩ :=
    ShutdownStep.eraseThread 7 ⟨[7], [0], 1, 1, false⟩ (by decide)
  have t4 : ShutdownStep ⟨[], [0], 1, 1, false⟩ ⟨[], [], 1, 1, true⟩ :=
    ShutdownStep.removeConnection 0 ⟨[], [0], 1, 1, false⟩ (by decide)
  exact shutdownAndWait_post 1 ⟨[], [], 1, 1, true⟩
    (Relation.ReflTransGen.tail (Relation.ReflTransGen.tail
      (Relation.ReflTransGen.tail (Relation.ReflTransGen.tail
        Relation.ReflTransGen.refl t1) t2) t3) t4)
    rfl rfl

/-- Witness for the amended C2 at a session with one free outgoing connection
and two callers already waiting: the acquisition succeeds and the count is
still two afterwards. -/
theorem find_waitingThreads_balance_witness :
    (find 5 ConnectionUse.client
        ⟨[⟨0, none, false⟩], [], 0, 2, 1, 0, none⟩).1 =
      FindResult.ok (Chosen.outg 0) false ∧
    (find 5 ConnectionUse.client
        ⟨[⟨0, none, false⟩], [], 0, 2, 1, 0, none⟩).2.waitingThreads = 2 :=
  ⟨by decide,
   (find_waitingThreads_balance 5 ConnectionUse.client
      ⟨[⟨0, none, false⟩], [], 0, 2, 1, 0, none⟩).1 (Chosen.outg 0) false
     (by decide)⟩

/-- Witness for C3 at initial offset 0: the three async acquisitions bind
connections 0, 1 and 2. -/
theorem async_rotation_witness :
    asyncAcquireChosen 42 (rotationState 0) = some (Chosen.outg 0) ∧
    asyncAcquireChosen 42 (asyncAcquireRelease 42 (rotationState 0)) =
      some (Chosen.outg 1) ∧
    asyncAcquireChosen 42
        (asyncAcquireRelease 42 (asyncAcquireRelease 42 (rotationState 0))) =
      some (Chosen.outg 2) :=
  (async_rotation 42 ConnectionUse.clientAsync (rotationState 0) 0
    (by decide)).2

/-- Witness for C4 on a two-connection pool: releasing the handle on
connection 0 clears its owner, leaves connection 1 untouched, and a
reentrant release changes nothing. -/
theorem release_semantics_witness :
    ((releaseExclusive ⟨some (Chosen.outg 0), false⟩
        ⟨[⟨0, some 5, false⟩, ⟨1, some 6, false⟩], [], 0, 1, 2, 0,
          none⟩).1.outgoingConnections.get? 0 = some ⟨0, none, false⟩) ∧
    ((releaseExclusive ⟨some (Chosen.outg 0), false⟩
        ⟨[⟨0, some 5, false⟩, ⟨1, some 6, false⟩], [], 0, 1, 2, 0,
          none⟩).1.outgoingConnections.get? 1 = some ⟨1, some 6, false⟩) ∧
    releaseExclusive ⟨some (Chosen.outg 0), true⟩
        ⟨[⟨0, some 5, false⟩, ⟨1, some 6, false⟩], [], 0, 1, 2, 0, none⟩ =
      (⟨[⟨0, some 5, false⟩, ⟨1, some 6, false⟩], [], 0, 1, 2, 0, none⟩,
       false) :=
  ⟨(release_semantics
      ⟨[⟨0, some 5, false⟩, ⟨1, some 6, false⟩], [], 0, 1, 2, 0, none⟩ 0
      (some (Chosen.outg 0))).1.1,
   (release_semantics
      ⟨[⟨0, some 5, false⟩, ⟨1, some 6, false⟩], [], 0, 1, 2, 0, none⟩ 0
      (some (Chosen.outg 0))).1.2.1 1 (by decide),
   (release_semantics
      ⟨[⟨0, some 5, false⟩, ⟨1, some 6, false⟩], [], 0, 1, 2, 0, none⟩ 0
      (some (Chosen.outg 0))).2.2⟩

/-- Witness for C5: an empty pool with room accepts the connection, and a
session whose max-thread count is 0 rejects it without touching the
state. -/
theorem assign_incoming_spec_witness :
    (assignIncomingConnectionToThisThread 5 9
        ⟨[], [], 0, 0, 2, 0, none⟩).2.incomingConnections =
      [⟨9, some 5, true⟩] ∧
    ((assignIncomingConnectionToThisThread 5 9
        ⟨[], [], 0, 0, 0, 0, none⟩).1 = none ∧
     (assignIncomingConnectionToThisThread 5 9
        ⟨[], [], 0, 0, 0, 0, none⟩).2 = ⟨[], [], 0, 0, 0, 0, none⟩) :=
  ⟨((assign_incoming_spec 5 9 ⟨[], [], 0, 0, 2, 0, none⟩).2.1
      (by decide)).2.1,
   (assign_incoming_spec 5 9 ⟨[], [], 0, 0, 0, 0, none⟩).1.mpr
     (Or.inl (by decide))⟩

/-- Witness for C7: a first connect failure with errno 111 (ECONNREFUSED)
fails immediately with status -111 after exactly one attempt and no
sleep. -/
theorem socket_retry_spec_witness :
    setupOneSocketConnection
        (fun _ => AttemptOutcome.connectErr 111 (PollOutcome.soError 0)) =
      (SetupResult.err (-((111 : Nat) : Int)), 1, []) :=
  (socket_retry_spec
      (fun _ => AttemptOutcome.connectErr 111 (PollOutcome.soError 0))
      0 (PollOutcome.soError 0) 111 (PollOutcome.soError 0)).2.2.2.2.2.1
    rfl (by decide) (by decide) (by decide) (by decide)

/-- Witness for the amended C8 with remote and local max threads both 2:
two outgoing and two incoming connections. -/
theorem setupClient_pool_sizes_witness :
    (setupClientPools 3 2
        ⟨[], [], 0, 0, 2, 0, none⟩).outgoingConnections.length = 2 ∧
    (setupClientPools 3 2
        ⟨[], [], 0, 0, 2, 0, none⟩).incomingConnections.length = 2 :=
  setupClient_pool_sizes 3 2 2 (by decide)

end RpcSession
